import Mathlib

/-!
# GarmentSync — verification of the order-tracking functional core

Shallow embedding of the GarmentSync server (routes, in-memory repository,
email dispatcher) and proofs of the specified properties.

Strings are modelled as `List Char` (`Str`); timestamps as `Nat`
(milliseconds, the value of `Date.getTime()`); the in-memory `Map`
collections as lists in insertion order (a JS `Map` iterates in insertion
order; `Map.set` on a fresh key appends, on an existing key replaces in
place).  Generated `randomUUID` keys are modelled by a fresh-id counter:
generated keys are always fresh, so insertion into a generated-key map is
an append.
-/

namespace GarmentSync

/-- Strings, modelled as lists of characters. -/
abbrev Str := List Char

/-! ## JavaScript string primitives used by the server -/

/-- The ECMAScript whitespace class `\s` (also the class trimmed by
`String.prototype.trim`). -/
def jsWs (c : Char) : Bool :=
  c.val == 0x09 || c.val == 0x0a || c.val == 0x0b || c.val == 0x0c ||
  c.val == 0x0d || c.val == 0x20 || c.val == 0xa0 || c.val == 0x1680 ||
  (0x2000 ≤ c.val && c.val ≤ 0x200a) || c.val == 0x2028 || c.val == 0x2029 ||
  c.val == 0x202f || c.val == 0x205f || c.val == 0x3000 || c.val == 0xfeff

/-- `String.prototype.trim`: strip leading and trailing whitespace. -/
def trim (s : Str) : Str :=
  ((s.dropWhile jsWs).reverse.dropWhile jsWs).reverse

/-- `String.prototype.split` on a single-character class: split at every
character satisfying `p`, keeping empty segments (JS semantics:
`"a,,b".split(/[,\n]/)` is `["a","","b"]`). -/
def splitKeep (p : Char → Bool) : Str → List Str
  | [] => [[]]
  | c :: cs =>
    let r := splitKeep p cs
    if p c then [] :: r
    else
      match r with
      | [] => [[c]]
      | w :: ws => (c :: w) :: ws

/-- The bulk-invite email-list delimiter class `[,\n]`. -/
def isSep (c : Char) : Bool := c == ',' || c == '\n'

/-- A character admitted by the `[^\s@]` class of the bulk-invite email
pattern. -/
def emailWordChar (c : Char) : Bool := !(jsWs c) && c != '@'

/-- `emailRegex.test(email)` for the pattern used by bulk invite, anchored:
one or more non-space non-`@` characters, `@`, one or more such characters,
a literal `.`, one or more such characters.  A full match forces exactly
one `@`; the domain part must contain a `.` with at least one character on
each side. -/
def emailRegexTest (s : Str) : Bool :=
  s.count '@' == 1 &&
  (let localPart := s.takeWhile (· != '@')
   let domain := (s.dropWhile (· != '@')).drop 1
   localPart != ([] : Str) && localPart.all emailWordChar &&
   domain != ([] : Str) && domain.all emailWordChar &&
   ((domain.drop 1).dropLast.contains '.'))

/-- `word.charAt(0).toUpperCase() + word.slice(1)` (for the empty string
both parts are empty).  `Char.toUpper` matches `toUpperCase` on the ASCII
characters that occur in email local parts. -/
def capitalizeWord (w : Str) : Str :=
  match w with
  | [] => []
  | c :: cs => c.toUpper :: cs

/-- The bulk-invite display-name derivation
`email.split('@')[0].replace(/[._]/g, ' ').split(' ')
  .map(word => word.charAt(0).toUpperCase() + word.slice(1)).join(' ')`. -/
def deriveName (email : Str) : Str :=
  let localPart := email.takeWhile (· != '@')
  let replaced := localPart.map (fun c => if c == '.' || c == '_' then ' ' else c)
  List.intercalate [' '] ((splitKeep (· == ' ') replaced).map capitalizeWord)

/-- Modelled from the spec: "Derive a display name from the address's local
part: split on `.`/`_`, capitalize each resulting word, join with spaces."
Stated directly in the spec's words (split on the separator characters
themselves) for comparison with the source's replace-then-split
`deriveName`. -/
def deriveNameSpec (email : Str) : Str :=
  List.intercalate [' ']
    ((splitKeep (fun c => c == '.' || c == '_') (email.takeWhile (· != '@'))).map
      capitalizeWord)

/-! ## Data model (`shared/schema.ts`, Order-based snapshot) -/

/-- An order row.  `createdAt` is a nullable timestamp column, always
stamped by `createOrder`. -/
structure Order where
  id : Str
  buyerName : Str
  styleNumber : Str
  quantity : Int
  estimatedDelivery : Nat
  buyerEmail : Str
  status : Str
  createdAt : Option Nat
  deriving DecidableEq, Repr

/-- An update row (append-only status note on an order).  Generated ids are
modelled as naturals from the store's fresh-id counter; `createdAt` is
always stamped by `createUpdate`. -/
structure Update where
  id : Nat
  orderId : Str
  message : Str
  authorName : Str
  authorRole : Str
  createdAt : Nat
  deriving DecidableEq, Repr

/-- A comment row — same shape as `Update`, separate collection. -/
structure Comment where
  id : Nat
  orderId : Str
  message : Str
  authorName : Str
  authorRole : Str
  createdAt : Nat
  deriving DecidableEq, Repr

/-- A stakeholder row (named collaborator attached to one order). -/
structure Stakeholder where
  id : Nat
  orderId : Str
  name : Str
  email : Str
  role : Str
  permissions : Str
  createdAt : Nat
  deriving DecidableEq, Repr

/-- The payload accepted by `insertOrderSchema` after validation: `status`
is optional (`z.string().optional()`), everything else present. -/
structure InsertOrder where
  id : Str
  buyerName : Str
  styleNumber : Str
  quantity : Int
  estimatedDelivery : Nat
  buyerEmail : Str
  status : Option Str
  deriving DecidableEq, Repr

/-- The payload accepted by `insertUpdateSchema` after validation. -/
structure InsertUpdate where
  orderId : Str
  message : Str
  authorName : Str
  authorRole : Str
  deriving DecidableEq, Repr

/-- Stakeholder creation payload as assembled by the routing layer. -/
structure InsertStakeholder where
  orderId : Str
  name : Str
  email : Str
  role : Str
  permissions : Str
  deriving DecidableEq, Repr

/-- The whole `MemStorage` state: the four collections (in `Map` insertion
order) plus the fresh-id counter standing for `randomUUID`. -/
structure StoreState where
  orders : List Order
  updates : List Update
  comments : List Comment
  stakeholders : List Stakeholder
  nextId : Nat
  deriving DecidableEq, Repr

/-! ## Repository (`server/storage.ts`, Order-based `MemStorage`) -/

/-- `this.orders.get(id)`: first (and, in a real `Map`, only) order with
the given id. -/
def getOrder (st : StoreState) (id : Str) : Option Order :=
  st.orders.find? (·.id == id)

/-- `order.createdAt!.getTime()` — the non-null-asserted creation time used
by the sort comparators (every creation path stamps `createdAt`). -/
def timeOf (o : Order) : Nat := o.createdAt.getD 0

/-- `getAllOrders`: all orders sorted by
`(a, b) => b.createdAt!.getTime() - a.createdAt!.getTime()`, i.e. a stable
sort descending by creation time (JS `Array.prototype.sort` is stable). -/
def getAllOrders (st : StoreState) : List Order :=
  st.orders.mergeSort (fun a b => decide (timeOf b ≤ timeOf a))

/-- `insertOrder.status || "received"`: JS `||` falls back on any falsy
value, i.e. on a missing status and also on the empty string. -/
def jsOrDefault (s : Option Str) (d : Str) : Str :=
  match s with
  | none => d
  | some v => if v == ([] : Str) then d else v

/-- The order record built by `createOrder`: the payload spread, status
defaulted, `createdAt` stamped with `new Date()`. -/
def mkOrderFromInsert (io : InsertOrder) (now : Nat) : Order :=
  { id := io.id
    buyerName := io.buyerName
    styleNumber := io.styleNumber
    quantity := io.quantity
    estimatedDelivery := io.estimatedDelivery
    buyerEmail := io.buyerEmail
    status := jsOrDefault io.status "received".toList
    createdAt := some now }

/-- `Map.set(order.id, order)` on the orders map: replace the entry with
that key in place if present, otherwise append. -/
def setOrderById (l : List Order) (o : Order) : List Order :=
  if l.any (·.id == o.id) then l.map (fun x => if x.id == o.id then o else x)
  else l ++ [o]

/-- `createOrder`: build the record (caller-supplied id), `Map.set` it,
return it.  No duplicate check of any kind. -/
def createOrder (st : StoreState) (io : InsertOrder) (now : Nat) :
    Order × StoreState :=
  let o := mkOrderFromInsert io now
  (o, { st with orders := setOrderById st.orders o })

/-- `updateOrderStatus`: look the order up; if absent return `undefined`;
otherwise overwrite `status` with the given string (no enum check) and
`Map.set` the result back. -/
def updateOrderStatus (st : StoreState) (id status : Str) :
    Option Order × StoreState :=
  match st.orders.find? (·.id == id) with
  | none => (none, st)
  | some o =>
    let o' := { o with status := status }
    (some o', { st with orders := setOrderById st.orders o' })

/-- `getUpdatesByOrder`: filter on `orderId`, then stable-sort by
`(a, b) => b.createdAt!.getTime() - a.createdAt!.getTime()` (descending). -/
def getUpdatesByOrder (st : StoreState) (oid : Str) : List Update :=
  (st.updates.filter (·.orderId == oid)).mergeSort
    (fun a b => decide (b.createdAt ≤ a.createdAt))

/-- `createUpdate`: generate an id, stamp `createdAt`, insert (fresh key,
hence an append), return the record. -/
def createUpdate (st : StoreState) (iu : InsertUpdate) (now : Nat) :
    Update × StoreState :=
  let u : Update :=
    { id := st.nextId, orderId := iu.orderId, message := iu.message
      authorName := iu.authorName, authorRole := iu.authorRole
      createdAt := now }
  (u, { st with updates := st.updates ++ [u], nextId := st.nextId + 1 })

/-- `getCommentsByOrder`: filter on `orderId`, then stable-sort by
`(a, b) => a.createdAt!.getTime() - b.createdAt!.getTime()` (ascending). -/
def getCommentsByOrder (st : StoreState) (oid : Str) : List Comment :=
  (st.comments.filter (·.orderId == oid)).mergeSort
    (fun a b => decide (a.createdAt ≤ b.createdAt))

/-- `createComment`: generate an id, stamp `createdAt`, insert, return. -/
def createComment (st : StoreState) (ic : InsertUpdate) (now : Nat) :
    Comment × StoreState :=
  let c : Comment :=
    { id := st.nextId, orderId := ic.orderId, message := ic.message
      authorName := ic.authorName, authorRole := ic.authorRole
      createdAt := now }
  (c, { st with comments := st.comments ++ [c], nextId := st.nextId + 1 })

/-- Modelled from the spec: the stakeholder repository methods
(`createStakeholder`, `getStakeholdersByOrder`) are invoked by the routing
layer but their implementation is not among the source files.  Per the
spec's repository contract, `create` assigns a generated id, stamps
`createdAt`, applies the supplied role/permissions, inserts, and returns
the full stored record. -/
def createStakeholder (st : StoreState) (is : InsertStakeholder) (now : Nat) :
    Stakeholder × StoreState :=
  let s : Stakeholder :=
    { id := st.nextId, orderId := is.orderId, name := is.name
      email := is.email, role := is.role, permissions := is.permissions
      createdAt := now }
  (s, { st with stakeholders := st.stakeholders ++ [s], nextId := st.nextId + 1 })

/-- Modelled from the spec: `listByParent` for stakeholders "returns all
child records whose foreign key matches, sorted — stakeholders ascending"
(by creation time); insertion order of the generated-key map is creation
order, so the filtered list is already ascending. -/
def getStakeholdersByOrder (st : StoreState) (oid : Str) : List Stakeholder :=
  st.stakeholders.filter (·.orderId == oid)

/-! ## Notification dispatcher (`server/email-service.ts`)

The transport is a parameter (nodemailer / the mail client); a send either
succeeds or fails with an error value.  Message bodies are pure string
formatting from order identity and message metadata; the error-handling
claims are independent of body content, so the transport below receives the
recipient address and the subject line (built exactly as in the source) —
the interpolated HTML/text bodies carry the same fields and are not
re-modelled character by character. -/

/-- A transport failure (the value thrown by the mail library). -/
abbrev TransportErr := Str

/-- `Promise.all` over a list of settled send attempts: the first rejection
rejects the whole batch, otherwise the batch resolves. -/
def promiseAll : List (Except TransportErr Unit) → Except TransportErr Unit
  | [] => .ok ()
  | .ok () :: rest => promiseAll rest
  | .error e :: _ => .error e

/-- `EmailService.sendNotification` (public variant): one `sendMail` per
recipient under `Promise.all`, the whole thing wrapped in
`try ... catch (error) [console.error, no rethrow]` — every outcome of the
transport yields a normal return to the caller. -/
def sendNotification (sendMail : Str → Str → Except TransportErr Unit)
    (recipients : List Str) (subject : Str) : Except TransportErr Unit :=
  match promiseAll (recipients.map (fun email => sendMail email subject)) with
  | .ok () => .ok ()
  | .error _ => .ok ()

/-- `EmailService.notifyStakeholders`: builds the subject
`` `Order ${orderInfo.id} - New ${notification.type}` `` and the templated
bodies, then delegates to the catch-and-log `sendNotification`. -/
def notifyStakeholders (sendMail : Str → Str → Except TransportErr Unit)
    (stakeholderEmails : List Str) (orderId : Str) (ntype : Str) :
    Except TransportErr Unit :=
  let subject := "Order ".toList ++ orderId ++ " - New ".toList ++ ntype
  sendNotification sendMail stakeholderEmails subject

/-- `EmailService.sendNotificationReply`: if the mail client is not
initialized, log and return; otherwise send and, in the `catch`, log and
`throw error` — a transport failure propagates to the caller. -/
def sendNotificationReply
    (client : Option (Str → Str → Str → Except TransportErr Unit))
    (toAddr subject message : Str) : Except TransportErr Unit :=
  match client with
  | none => .ok ()
  | some send =>
    match send toAddr subject message with
    | .ok () => .ok ()
    | .error e => .error e

/-! ## Workflow/API layer (`server/routes.ts`) -/

/-- `insertUpdateSchema` (body fields; `orderId` is injected from the path
before parsing): every string nonempty, `authorRole` one of the two enum
values. -/
structure UpdateBody where
  message : Str
  authorName : Str
  authorRole : Str
  deriving DecidableEq, Repr

/-- Validation performed by `insertUpdateSchema.parse` on the merged
object. -/
def validUpdateBody (oid : Str) (b : UpdateBody) : Bool :=
  oid != ([] : Str) && b.message != ([] : Str) && b.authorName != ([] : Str) &&
  (b.authorRole == "manufacturer".toList || b.authorRole == "buyer".toList)

/-- Outcome of `POST /api/orders/:id/updates`: 400 on a ZodError, otherwise
201 with the created update; `dispatchCount` counts the transport send
attempts made for stakeholder notification (one `sendMail` per stakeholder
email when the guard `order && stakeholders.length > 0` passes, zero
otherwise — notification failures are swallowed by `sendNotification` and
never change the response). -/
inductive PostUpdateResult where
  | badRequest
  | created (u : Update) (dispatchCount : Nat)
  deriving DecidableEq, Repr

/-- `POST /api/orders/:id/updates`: validate (with the path id injected),
persist the update, then look the order and its stakeholders up and notify
when the order exists and has at least one stakeholder.  Note the persist
happens before — and regardless of — the order lookup. -/
def postUpdate (st : StoreState) (oid : Str) (b : UpdateBody) (now : Nat) :
    PostUpdateResult × StoreState :=
  if validUpdateBody oid b then
    let p := createUpdate st
      { orderId := oid, message := b.message, authorName := b.authorName
        authorRole := b.authorRole } now
    let order := getOrder p.2 oid
    let shs := getStakeholdersByOrder p.2 oid
    let dispatchCount := if order.isSome && shs.length > 0 then shs.length else 0
    (.created p.1 dispatchCount, p.2)
  else (.badRequest, st)

/-- The aggregate returned by bulk invite: counts plus the itemized
per-address `(email, status)` list, statuses being the literal strings
written by the handler. -/
structure BulkOutcome where
  successCount : Nat
  addedCount : Nat
  totalEmails : Nat
  results : List (Str × Str)
  deriving DecidableEq, Repr

/-- Response of `POST /api/orders/:id/stakeholders/bulk-invite`: 400 when
no nonempty address remains after parsing, 404 when the order is absent,
otherwise 201 with the aggregate. -/
inductive BulkResponse where
  | badRequest
  | notFound
  | created (o : BulkOutcome)
  deriving DecidableEq, Repr

/-- One iteration of the bulk-invite loop, threading
`(successCount, addedCount, results, store)`.  Per address: reject on the
email pattern (`invalid`); re-read the order's stakeholders from the store
and reject on an exact email collision (`exists`); otherwise derive the
display name, persist the stakeholder (`addedCount++`), then attempt the
invitation email — a transport throw is caught by the per-address
`catch` (`error`), success increments `successCount`. -/
def bulkInviteStep (oid defaultRole defaultPermissions : Str)
    (sendFails : Str → Bool) (now : Nat)
    (acc : Nat × Nat × List (Str × Str) × StoreState) (email : Str) :
    Nat × Nat × List (Str × Str) × StoreState :=
  let succ := acc.1
  let added := acc.2.1
  let results := acc.2.2.1
  let s := acc.2.2.2
  if !(emailRegexTest email) then
    (succ, added, results ++ [(email, "invalid".toList)], s)
  else if (getStakeholdersByOrder s oid).any (·.email == email) then
    (succ, added, results ++ [(email, "exists".toList)], s)
  else
    let name := deriveName email
    let p := createStakeholder s
      { orderId := oid, name := name, email := email, role := defaultRole
        permissions := defaultPermissions } now
    if sendFails email then
      (succ, added + 1, results ++ [(email, "error".toList)], p.2)
    else
      (succ + 1, added + 1, results ++ [(email, "success".toList)], p.2)

/-- `POST /api/orders/:id/stakeholders/bulk-invite`: split the raw list on
`[,\n]`, trim, drop empties; 400 if nothing remains; 404 if the order does
not exist; then the sequential per-address loop.  `sendFails` abstracts
which invitation emails the transport rejects. -/
def bulkInvite (st : StoreState) (oid : Str) (emailList : Str)
    (defaultRole defaultPermissions : Str) (sendFails : Str → Bool)
    (now : Nat) : BulkResponse × StoreState :=
  let emails := ((splitKeep isSep emailList).map trim).filter (· != ([] : Str))
  if emails.length == 0 then (.badRequest, st)
  else
    match getOrder st oid with
    | none => (.notFound, st)
    | some _ =>
      let r := emails.foldl
        (bulkInviteStep oid defaultRole defaultPermissions sendFails now)
        (0, 0, [], st)
      (.created
        { successCount := r.1, addedCount := r.2.1
          totalEmails := emails.length, results := r.2.2.1 }, r.2.2.2)

/-! ## Concrete fixtures for the instantiated properties -/

/-- An existing order with no stakeholders. -/
def ordA : Order :=
  { id := "ORD-1".toList, buyerName := "Fashion Forward Inc.".toList
    styleNumber := "FF-2024-001".toList, quantity := 1000
    estimatedDelivery := 1710460800000, buyerEmail := "orders@ff.com".toList
    status := "received".toList, createdAt := some 0 }

/-- A store holding exactly `ordA` and nothing else. -/
def stA : StoreState :=
  { orders := [ordA], updates := [], comments := [], stakeholders := []
    nextId := 0 }

/-- The empty store. -/
def stEmpty : StoreState :=
  { orders := [], updates := [], comments := [], stakeholders := []
    nextId := 0 }

/-- Two updates on the same order sharing the same creation time. -/
def updTie1 : Update :=
  { id := 0, orderId := "O".toList, message := "first".toList
    authorName := "A".toList, authorRole := "buyer".toList, createdAt := 5 }

/-- Second update with the same `createdAt` as `updTie1`. -/
def updTie2 : Update :=
  { id := 1, orderId := "O".toList, message := "second".toList
    authorName := "A".toList, authorRole := "buyer".toList, createdAt := 5 }

/-- A store whose updates collection holds the two tied updates. -/
def stTie : StoreState :=
  { orders := [], updates := [updTie1, updTie2], comments := []
    stakeholders := [], nextId := 2 }

/-- A valid update body used for the post-update properties. -/
def bodyA : UpdateBody :=
  { message := "Cutting done".toList, authorName := "Sarah".toList
    authorRole := "manufacturer".toList }

/-- A valid order payload with `status` omitted. -/
def ioA : InsertOrder :=
  { id := "ORD-9".toList, buyerName := "Acme".toList
    styleNumber := "ST-9".toList, quantity := 5
    estimatedDelivery := 1700000000000, buyerEmail := "a@b.co".toList
    status := none }

/-- A valid order payload reusing the id of `ordA`. -/
def ioDup : InsertOrder :=
  { id := "ORD-1".toList, buyerName := "Replacer".toList
    styleNumber := "ST-R".toList, quantity := 7
    estimatedDelivery := 1700000001000, buyerEmail := "r@b.co".toList
    status := some "shipped".toList }

/-! ## Helper lemmas on the repository primitives -/

theorem splitKeep_ne_nil (p : Char → Bool) (l : Str) : splitKeep p l ≠ [] := by
  cases l with
  | nil => simp [splitKeep]
  | cons c cs =>
    simp only [splitKeep]
    by_cases h : p c = true
    · simp [h]
    · simp only [h]
      cases splitKeep p cs <;> simp

theorem find?_map_replace (l : List Order) (o : Order)
    (h : l.any (·.id == o.id) = true) :
    (l.map (fun x => if x.id == o.id then o else x)).find? (·.id == o.id) =
      some o := by
  induction l with
  | nil => simp at h
  | cons x xs ih =>
    rw [List.map_cons]
    by_cases hx : (x.id == o.id) = true
    · rw [if_pos hx, List.find?_cons_of_pos _ (by simp)]
    · rw [if_neg hx]
      have hx' : (x.id == o.id) = false := by simpa using hx
      rw [List.find?_cons, hx']
      exact ih (by simpa [List.any_cons, hx] using h)

theorem find?_append_self (l : List Order) (o : Order)
    (h : l.any (·.id == o.id) = false) :
    (l ++ [o]).find? (·.id == o.id) = some o := by
  induction l with
  | nil => simp [List.find?]
  | cons x xs ih =>
    simp only [List.any_cons, Bool.or_eq_false_iff] at h
    simp [List.find?, h.1, ih h.2]

theorem setOrderById_find?_self (l : List Order) (o : Order) :
    (setOrderById l o).find? (·.id == o.id) = some o := by
  unfold setOrderById
  by_cases ha : l.any (·.id == o.id) = true
  · rw [if_pos ha]; exact find?_map_replace l o ha
  · rw [if_neg ha]
    exact find?_append_self l o (Bool.eq_false_iff.mpr ha)

theorem setOrderById_ids_nodup (l : List Order) (o : Order)
    (h : (l.map (·.id)).Nodup) :
    ((setOrderById l o).map (·.id)).Nodup := by
  unfold setOrderById
  by_cases ha : l.any (·.id == o.id) = true
  · rw [if_pos ha]
    have hmap : (l.map (fun x => if x.id == o.id then o else x)).map (·.id) =
        l.map (·.id) := by
      rw [List.map_map]
      apply List.map_congr_left
      intro a _
      by_cases hx : (a.id == o.id) = true
      · simp only [Function.comp, hx, if_pos]
        exact (eq_of_beq hx).symm
      · simp [Function.comp, hx]
    rw [hmap]; exact h
  · rw [if_neg ha]
    have hnotin : o.id ∉ l.map (·.id) := by
      intro hmem
      obtain ⟨x, hxl, hxid⟩ := List.mem_map.mp hmem
      have : l.any (·.id == o.id) = true :=
        List.any_eq_true.mpr ⟨x, hxl, by simp [hxid]⟩
      exact ha this
    simp only [List.map_append, List.map_cons, List.map_nil]
    exact List.Nodup.append h (List.nodup_singleton o.id)
      (by simpa [List.disjoint_singleton] using hnotin)

theorem setOrderById_mem_eq (l : List Order) (o : Order) :
    ∀ x ∈ setOrderById l o, x.id = o.id → x = o := by
  intro x hx hid
  unfold setOrderById at hx
  by_cases ha : l.any (·.id == o.id) = true
  · rw [if_pos ha] at hx
    obtain ⟨y, hyl, hyx⟩ := List.mem_map.mp hx
    by_cases hy2 : (y.id == o.id) = true
    · rw [if_pos hy2] at hyx; exact hyx.symm
    · rw [if_neg hy2] at hyx
      subst hyx
      exact absurd (by simp [hid]) hy2
  · rw [if_neg ha] at hx
    rcases List.mem_append.mp hx with h1 | h2
    · exfalso
      have : l.any (·.id == o.id) = true :=
        List.any_eq_true.mpr ⟨x, h1, by simp [hid]⟩
      exact ha this
    · simpa using h2

theorem pairwise_mergeSort_desc {α : Type} (key : α → Nat) (l : List α) :
    (l.mergeSort (fun a b => decide (key b ≤ key a))).Pairwise
      (fun a b => key b ≤ key a) := by
  have h : (l.mergeSort (fun a b => decide (key b ≤ key a))).Pairwise
      (fun a b => (fun x y : α => decide (key y ≤ key x)) a b = true) :=
    List.sorted_mergeSort
      (fun a b c hab hbc => by
        simp only [decide_eq_true_eq] at *
        omega)
      (fun a b => by
        simp only [Bool.or_eq_true, decide_eq_true_eq]
        omega) l
  exact h.imp (fun hab => by simpa using hab)

theorem pairwise_mergeSort_asc {α : Type} (key : α → Nat) (l : List α) :
    (l.mergeSort (fun a b => decide (key a ≤ key b))).Pairwise
      (fun a b => key a ≤ key b) := by
  have h : (l.mergeSort (fun a b => decide (key a ≤ key b))).Pairwise
      (fun a b => (fun x y : α => decide (key x ≤ key y)) a b = true) :=
    List.sorted_mergeSort
      (fun a b c hab hbc => by
        simp only [decide_eq_true_eq] at *
        omega)
      (fun a b => by
        simp only [Bool.or_eq_true, decide_eq_true_eq]
        omega) l
  exact h.imp (fun hab => by simpa using hab)

/-! ## Claim theorems -/

/-- C1: bulk invite on the raw input "a@x.com, a@x.com\nbad-email, b@x.com"
against an existing order with no stakeholders returns exactly 4 itemized
results in input order — success for the first a@x.com, exists for the
second (detected against the entry persisted earlier in the same batch),
invalid for bad-email, success for b@x.com — with addedCount 2 and
totalEmails 4, and exactly the two stakeholders a@x.com and b@x.com are
added to the order. -/
theorem C1_bulk_invite_batch :
    (bulkInvite stA "ORD-1".toList
        "a@x.com, a@x.com\nbad-email, b@x.com".toList
        "viewer".toList "read".toList (fun _ => false) 7).1 =
      .created
        { successCount := 2, addedCount := 2, totalEmails := 4
          results :=
            [("a@x.com".toList, "success".toList),
             ("a@x.com".toList, "exists".toList),
             ("bad-email".toList, "invalid".toList),
             ("b@x.com".toList, "success".toList)] } ∧
    (getStakeholdersByOrder
        (bulkInvite stA "ORD-1".toList
          "a@x.com, a@x.com\nbad-email, b@x.com".toList
          "viewer".toList "read".toList (fun _ => false) 7).2
        "ORD-1".toList).map (·.email) =
      ["a@x.com".toList, "b@x.com".toList] := by
  constructor
  · decide
  · decide

/-- C2 (amended): for every store state and order id, listing updates
returns exactly the stored updates whose orderId matches, sorted descending
by createdAt, and listing comments returns exactly the stored comments
whose orderId matches, sorted ascending by createdAt — the sort is
non-strict: records sharing a createdAt both appear, adjacently. -/
theorem C2_list_by_parent_filter_sorted (st : StoreState) (oid : Str) :
    (getUpdatesByOrder st oid).Perm (st.updates.filter (·.orderId == oid)) ∧
    (getUpdatesByOrder st oid).Pairwise (fun a b => b.createdAt ≤ a.createdAt) ∧
    (getCommentsByOrder st oid).Perm (st.comments.filter (·.orderId == oid)) ∧
    (getCommentsByOrder st oid).Pairwise (fun a b => a.createdAt ≤ b.createdAt) :=
  ⟨List.mergeSort_perm _ _, pairwise_mergeSort_desc (fun u : Update => u.createdAt) _,
   List.mergeSort_perm _ _, pairwise_mergeSort_asc (fun c : Comment => c.createdAt) _⟩

/-- C2 (counterexample): with two stored updates on the same order sharing
the same createdAt, the listing is not strictly descending by createdAt —
the two tied records appear consecutively — so the claim's "sorted strictly
descending by createdAt ... for every store state" fails. -/
theorem C2_strictness_counterexample :
    getUpdatesByOrder stTie "O".toList = [updTie1, updTie2] ∧
    ¬ (getUpdatesByOrder stTie "O".toList).Pairwise
        (fun a b => b.createdAt < a.createdAt) := by
  have heq : getUpdatesByOrder stTie "O".toList = [updTie1, updTie2] := by
    have hf : stTie.updates.filter (·.orderId == "O".toList) = [updTie1, updTie2] := by
      decide
    unfold getUpdatesByOrder
    rw [hf]
    simp [List.mergeSort, updTie1, updTie2]
  refine ⟨heq, ?_⟩
  rw [heq]
  intro hp
  have h12 := (List.pairwise_cons.mp hp).1 updTie2 (by simp)
  simp [updTie1, updTie2] at h12

/-- C10: listing all orders returns every stored order exactly once (a
permutation of the collection), stably sorted descending by the
non-null-asserted creation time, for every store state. -/
theorem C10_get_all_orders_perm_sorted (st : StoreState) :
    (getAllOrders st).Perm st.orders ∧
    (getAllOrders st).Pairwise (fun a b => timeOf b ≤ timeOf a) :=
  ⟨List.mergeSort_perm _ _, pairwise_mergeSort_desc timeOf _⟩

/-- C3: notification error handling is asymmetric — a transport failure
during a broadcast stakeholder notification (the update/comment notify
flow, which goes through the catch-and-log sendNotification) is swallowed,
so the workflow caller always gets a normal return; a transport failure
during a direct notification reply (with the mail client initialized) is
re-thrown to the caller. -/
theorem C3_notification_error_asymmetry :
    (∀ (sendMail : Str → Str → Except TransportErr Unit)
       (recipients : List Str) (subject : Str),
       sendNotification sendMail recipients subject = .ok ()) ∧
    (∀ (sendMail : Str → Str → Except TransportErr Unit)
       (emails : List Str) (oid ntype : Str),
       notifyStakeholders sendMail emails oid ntype = .ok ()) ∧
    (∀ (send : Str → Str → Str → Except TransportErr Unit)
       (toAddr subject message : Str) (e : TransportErr),
       send toAddr subject message = .error e →
       sendNotificationReply (some send) toAddr subject message = .error e) := by
  have hpub : ∀ (sendMail : Str → Str → Except TransportErr Unit)
      (recipients : List Str) (subject : Str),
      sendNotification sendMail recipients subject = .ok () := by
    intro sendMail recipients subject
    unfold sendNotification
    split <;> rfl
  refine ⟨hpub, fun sendMail emails oid ntype => hpub _ _ _, ?_⟩
  intro send toAddr subject message e h
  simp [sendNotificationReply, h]

/-- C3 (witness): a transport that always fails makes the direct reply flow
return that very error. -/
theorem C3_notification_error_asymmetry_witness :
    (fun (_ _ _ : Str) =>
        (Except.error "boom".toList : Except TransportErr Unit))
      "x@y.z".toList "Subj".toList "Msg".toList = .error "boom".toList ∧
    sendNotificationReply
      (some (fun (_ _ _ : Str) =>
        (Except.error "boom".toList : Except TransportErr Unit)))
      "x@y.z".toList "Subj".toList "Msg".toList = .error "boom".toList :=
  ⟨rfl, C3_notification_error_asymmetry.2.2 _ _ _ _ _ rfl⟩

/-- C4: for every valid order-creation payload, the created order's status
is "received" whenever the payload omits status, and its createdAt is the
(non-null) creation timestamp. -/
theorem C4_create_order_defaults (st : StoreState) (io : InsertOrder)
    (now : Nat) :
    (io.status = none → (createOrder st io now).1.status = "received".toList) ∧
    (createOrder st io now).1.createdAt = some now := by
  constructor
  · intro h
    simp [createOrder, mkOrderFromInsert, jsOrDefault, h]
  · rfl

/-- C4 (witness): a concrete payload with status omitted gets status
"received" and createdAt stamped. -/
theorem C4_create_order_defaults_witness :
    ioA.status = none ∧
    (createOrder stEmpty ioA 5).1.status = "received".toList ∧
    (createOrder stEmpty ioA 5).1.createdAt = some 5 :=
  ⟨rfl, (C4_create_order_defaults stEmpty ioA 5).1 rfl,
   (C4_create_order_defaults stEmpty ioA 5).2⟩

/-- C5: updating an order's status persists exactly the given string — any
string, with no enum check at the repository layer — and returns the
updated order; for a non-existent id it returns the not-found signal. -/
theorem C5_update_status_permissive (st : StoreState) (id status : Str) :
    (getOrder st id = none → (updateOrderStatus st id status).1 = none) ∧
    (∀ o, getOrder st id = some o →
      (updateOrderStatus st id status).1 = some { o with status := status } ∧
      getOrder (updateOrderStatus st id status).2 id =
        some { o with status := status }) := by
  constructor
  · intro h
    unfold getOrder at h
    unfold updateOrderStatus
    rw [h]
  · intro o h
    unfold getOrder at h
    unfold updateOrderStatus
    rw [h]
    refine ⟨rfl, ?_⟩
    unfold getOrder
    have hbeq : (o.id == id) = true := by simpa using List.find?_some h
    have hid : o.id = id := eq_of_beq hbeq
    have hfind := setOrderById_find?_self st.orders { o with status := status }
    simpa [hid] using hfind

/-- C5 (witness): the unrecognized status string "totally_bogus" is
persisted verbatim on an existing order. -/
theorem C5_update_status_permissive_witness :
    getOrder stA "ORD-1".toList = some ordA ∧
    (updateOrderStatus stA "ORD-1".toList "totally_bogus".toList).1 =
      some { ordA with status := "totally_bogus".toList } ∧
    getOrder (updateOrderStatus stA "ORD-1".toList "totally_bogus".toList).2
        "ORD-1".toList = some { ordA with status := "totally_bogus".toList } := by
  have h : getOrder stA "ORD-1".toList = some ordA := by decide
  exact ⟨h, (C5_update_status_permissive stA "ORD-1".toList
    "totally_bogus".toList).2 ordA h⟩

/-- C6: posting a valid update to an existing order with zero stakeholders
performs zero notification dispatch attempts and still returns the created
update with created status; the update is persisted. -/
theorem C6_post_update_zero_stakeholders (st : StoreState) (oid : Str)
    (b : UpdateBody) (now : Nat)
    (hv : validUpdateBody oid b = true)
    (ho : (getOrder st oid).isSome = true)
    (hs : getStakeholdersByOrder st oid = []) :
    (postUpdate st oid b now).1 =
      .created
        { id := st.nextId, orderId := oid, message := b.message
          authorName := b.authorName, authorRole := b.authorRole
          createdAt := now } 0 ∧
    ({ id := st.nextId, orderId := oid, message := b.message
       authorName := b.authorName, authorRole := b.authorRole
       createdAt := now } : Update) ∈ (postUpdate st oid b now).2.updates := by
  have hs' : st.stakeholders.filter (·.orderId == oid) = [] := hs
  simp [postUpdate, hv, createUpdate, getStakeholdersByOrder, hs']

/-- C6 (witness): concrete instance on a store holding one order and no
stakeholder. -/
theorem C6_post_update_zero_stakeholders_witness :
    validUpdateBody "ORD-1".toList bodyA = true ∧
    (getOrder stA "ORD-1".toList).isSome = true ∧
    getStakeholdersByOrder stA "ORD-1".toList = [] ∧
    (postUpdate stA "ORD-1".toList bodyA 3).1 =
      .created
        { id := stA.nextId, orderId := "ORD-1".toList, message := bodyA.message
          authorName := bodyA.authorName, authorRole := bodyA.authorRole
          createdAt := 3 } 0 :=
  ⟨by decide, by decide, by decide,
   (C6_post_update_zero_stakeholders stA "ORD-1".toList bodyA 3 (by decide)
      (by decide) (by decide)).1⟩

theorem splitKeep_cons (p : Char → Bool) (c : Char) (cs : Str) :
    splitKeep p (c :: cs) =
      if p c then [] :: splitKeep p cs
      else
        match splitKeep p cs with
        | [] => [[c]]
        | w :: ws => (c :: w) :: ws := rfl

theorem splitKeep_map_sep (l : Str) (h : ∀ c ∈ l, c ≠ ' ') :
    splitKeep (· == ' ')
        (l.map (fun c => if c == '.' || c == '_' then ' ' else c)) =
      splitKeep (fun c => c == '.' || c == '_') l := by
  induction l with
  | nil => rfl
  | cons c cs ih =>
    have hc : c ≠ ' ' := h c (List.mem_cons_self c cs)
    have hcs : ∀ x ∈ cs, x ≠ ' ' := fun x hx => h x (List.mem_cons_of_mem c hx)
    have ihr := ih hcs
    rw [List.map_cons]
    by_cases hsep : (c == '.' || c == '_') = true
    · rw [if_pos hsep, splitKeep_cons, splitKeep_cons,
        if_pos (show ((' ' == ' ') = true) from rfl), if_pos hsep, ihr]
    · have hsep' : (c == '.' || c == '_') = false := by simpa using hsep
      have hc2 : (c == ' ') = false := by simpa using hc
      rw [if_neg hsep, splitKeep_cons, splitKeep_cons, hsep', hc2, ihr]

/-- C7: the bulk-invite display name splits the email's local part on the
separator characters (dot and underscore), capitalizes the first letter of
each resulting word, and joins with single spaces (the source does this as
replace-separators-with-space then split-on-space, equivalent whenever the
local part contains no literal space — always the case for addresses that
passed the email check); in particular john.q_public@co.com becomes
"John Q Public". -/
theorem C7_derive_name (email : Str)
    (h : ∀ c ∈ email.takeWhile (· != '@'), c ≠ ' ') :
    deriveName email = deriveNameSpec email ∧
    deriveName "john.q_public@co.com".toList = "John Q Public".toList := by
  refine ⟨?_, by decide⟩
  simp only [deriveName, deriveNameSpec]
  rw [splitKeep_map_sep _ h]

/-- C7 (witness): the concrete email's local part has no space and the two
derivations agree on it. -/
theorem C7_derive_name_witness :
    (∀ c ∈ "john.q_public@co.com".toList.takeWhile (· != '@'), c ≠ ' ') ∧
    deriveName "john.q_public@co.com".toList =
      deriveNameSpec "john.q_public@co.com".toList :=
  ⟨by decide, (C7_derive_name _ (by decide)).1⟩

/-- C8 (counterexample): posting a valid update under the nonexistent order
id "GHOST" on the empty store persists an orphan update — afterwards the
updates collection holds a record whose orderId is "GHOST" while the orders
collection is empty — refuting the claim that no workflow-level post-update
operation leaves a persisted orphan update. -/
theorem C8_orphan_counterexample :
    getOrder stEmpty "GHOST".toList = none ∧
    (postUpdate stEmpty "GHOST".toList bodyA 3).1 =
      .created
        { id := 0, orderId := "GHOST".toList, message := bodyA.message
          authorName := bodyA.authorName, authorRole := bodyA.authorRole
          createdAt := 3 } 0 ∧
    (postUpdate stEmpty "GHOST".toList bodyA 3).2.updates.map (·.orderId) =
      ["GHOST".toList] ∧
    (postUpdate stEmpty "GHOST".toList bodyA 3).2.orders = [] := by
  refine ⟨by decide, by decide, by decide, by decide⟩

/-- C8 (amended): the workflow layer does not enforce the update → order
foreign key for persistence either: posting a valid update under a
nonexistent order id persists the update (an orphan) and returns it with
created status and zero notification dispatches — the order lookup happens
after the create and only gates notification. -/
theorem C8_orphan_update_persisted (st : StoreState) (oid : Str)
    (b : UpdateBody) (now : Nat)
    (hv : validUpdateBody oid b = true)
    (ho : getOrder st oid = none) :
    (postUpdate st oid b now).1 =
      .created
        { id := st.nextId, orderId := oid, message := b.message
          authorName := b.authorName, authorRole := b.authorRole
          createdAt := now } 0 ∧
    ({ id := st.nextId, orderId := oid, message := b.message
       authorName := b.authorName, authorRole := b.authorRole
       createdAt := now } : Update) ∈ (postUpdate st oid b now).2.updates ∧
    (postUpdate st oid b now).2.orders = st.orders := by
  have ho' : st.orders.find? (·.id == oid) = none := ho
  simp [postUpdate, hv, createUpdate, getOrder, ho']

/-- C8 (amended, witness): concrete instance on the empty store. -/
theorem C8_orphan_update_persisted_witness :
    validUpdateBody "GHOST".toList bodyA = true ∧
    getOrder stEmpty "GHOST".toList = none ∧
    (postUpdate stEmpty "GHOST".toList bodyA 4).2.orders = stEmpty.orders :=
  ⟨by decide, by decide,
   (C8_orphan_update_persisted stEmpty "GHOST".toList bodyA 4 (by decide)
      (by decide)).2.2⟩

/-- C9: creating an order whose caller-supplied id already exists never
fails and reports no duplicate — it silently replaces the stored order with
the new record (fresh createdAt), returns the new record, and leaves at
most one order per id (key uniqueness is preserved). -/
theorem C9_create_order_overwrites (st : StoreState) (io : InsertOrder)
    (now : Nat) (h : (st.orders.map (·.id)).Nodup) :
    getOrder (createOrder st io now).2 io.id =
      some (createOrder st io now).1 ∧
    (createOrder st io now).1.createdAt = some now ∧
    (∀ x ∈ (createOrder st io now).2.orders,
      x.id = io.id → x = (createOrder st io now).1) ∧
    ((createOrder st io now).2.orders.map (·.id)).Nodup := by
  refine ⟨?_, rfl, ?_, ?_⟩
  · have hfind := setOrderById_find?_self st.orders (mkOrderFromInsert io now)
    simpa [getOrder, createOrder] using hfind
  · intro x hx hid
    exact setOrderById_mem_eq st.orders _ x hx (by simpa using hid)
  · exact setOrderById_ids_nodup st.orders _ h

/-- C9 (witness): re-creating with the already-stored id "ORD-1" replaces
the record and stamps a fresh createdAt. -/
theorem C9_create_order_overwrites_witness :
    (stA.orders.map (·.id)).Nodup ∧
    getOrder (createOrder stA ioDup 9).2 ioDup.id =
      some (createOrder stA ioDup 9).1 ∧
    (createOrder stA ioDup 9).1.createdAt = some 9 :=
  ⟨by decide, (C9_create_order_overwrites stA ioDup 9 (by decide)).1,
   (C9_create_order_overwrites stA ioDup 9 (by decide)).2.1⟩

end GarmentSync
